import Mathlib

/-!
Verification development for the SilentDownloads browser extension.

The definitions below are a shallow embedding of the JavaScript sources:
`src/background.js` (download policy engine, settings and log plumbing) and
the content script (DOM mutation classification, notification constructor
override, console overrides).  JavaScript strings are Lean `String`s,
`undefined`/`null`-able values are `Option`s, and code that can throw is
embedded through `Except`.
-/

/-! ## String primitives mirroring JavaScript string operations -/

/-- Tests whether the first character list starts the second
(the list-level core of JavaScript `String.prototype.startsWith`). -/
def leadsWith : List Char → List Char → Bool
  | [], _ => true
  | _ :: _, [] => false
  | a :: as, b :: bs => a == b && leadsWith as bs

/-- Tests whether `needle` occurs contiguously inside the second list. -/
def occursIn (needle : List Char) : List Char → Bool
  | [] => leadsWith needle []
  | c :: rest => leadsWith needle (c :: rest) || occursIn needle rest

/-- JavaScript `hay.includes(needle)` on strings. -/
def strContains (hay needle : String) : Bool :=
  occursIn needle.data hay.data

/-- JavaScript `s.toLowerCase()` (ASCII case folding, which covers every
string the extension ever matches against). -/
def lowerStr (s : String) : String :=
  ⟨s.data.map Char.toLower⟩

/-- Splits a character list at every occurrence of the separator
character.  The separators used by `background.js` are the one-character
strings `'/'` and `'\\'`, so this is exactly
`String.prototype.split(pathSeparator)` for the paths at hand.  The
result is always nonempty. -/
def jsSplitChar (sep : Char) : List Char → List (List Char)
  | [] => [[]]
  | c :: rest =>
    let r := jsSplitChar sep rest
    if c == sep then [] :: r
    else
      match r with
      | [] => [[c]]
      | h :: t => (c :: h) :: t

/-- JavaScript `s.split(sep).pop()` for a one-character separator: the
text after the last occurrence of the separator (the whole string when
the separator does not occur). -/
def lastSegAfter (sep : Char) (s : String) : String :=
  ⟨(jsSplitChar sep s.data).getLastD []⟩

/-! ## Settings storage (`chrome.storage.sync`) -/

/-- Snapshot of the `chrome.storage.sync` keys touched by `background.js`.
A `none` field is a key absent from storage (`undefined` in JavaScript). -/
structure SyncStorage where
  silentDownloads : Option Bool
  defaultPath : Option String
  hideNotifications : Option Bool
  hideDownloadBar : Option Bool
  autoStart : Option Bool
  conflictAction : Option String
deriving DecidableEq

/-- JavaScript `x !== false` on a possibly-absent boolean, the default-true
read used by the `getSettings` branch of `background.js`. -/
def jsNotFalse : Option Bool → Bool
  | some false => false
  | _ => true

/-- JavaScript truthiness of a possibly-absent boolean, the check
`if (result.silentDownloads)` used by the download listeners. -/
def jsTruthy : Option Bool → Bool
  | some true => true
  | _ => false

/-- Response object built by the `getSettings` branch of the
`chrome.runtime.onMessage` listener (`background.js`, success path).
The JavaScript object literal has no `conflictAction` key, which the
embedding records as a `conflictAction` field of the response type that
the branch never populates. -/
structure GetSettingsResponse where
  silentDownloads : Bool
  defaultPath : String
  hideNotifications : Bool
  hideDownloadBar : Bool
  autoStart : Bool
  conflictAction : Option String
deriving DecidableEq

/-- The `getSettings` branch of the message listener: reads the five keys
from `chrome.storage.sync`, applies the `!== false` default for booleans and
`result.defaultPath ?? defaultDownloadPath` for the path.  `ddp` is the
module-global `defaultDownloadPath`. -/
def getSettingsResponse (st : SyncStorage) (ddp : String) : GetSettingsResponse where
  silentDownloads := jsNotFalse st.silentDownloads
  defaultPath := st.defaultPath.getD ddp
  hideNotifications := jsNotFalse st.hideNotifications
  hideDownloadBar := jsNotFalse st.hideDownloadBar
  autoStart := jsNotFalse st.autoStart
  conflictAction := none

/-- The fields of a `saveSettings` request message as sent by the options
page (`conflictAction` is present in the message but, as `settingsToSave`
in `background.js` shows, never forwarded to storage). -/
structure SaveRequest where
  silentDownloads : Bool
  defaultPath : String
  hideNotifications : Bool
  hideDownloadBar : Bool
  autoStart : Bool
  conflictAction : Option String
deriving DecidableEq

/-- Effect of the `saveSettings` branch on `chrome.storage.sync`: exactly
the five keys of `settingsToSave` are written; any stored `conflictAction`
key is untouched. -/
def saveSettingsApply (req : SaveRequest) (st : SyncStorage) : SyncStorage where
  silentDownloads := some req.silentDownloads
  defaultPath := some req.defaultPath
  hideNotifications := some req.hideNotifications
  hideDownloadBar := some req.hideDownloadBar
  autoStart := some req.autoStart
  conflictAction := st.conflictAction

/-- Effect of the `saveSettings` branch on the module-global
`defaultDownloadPath`: updated only when `request.defaultPath` is truthy. -/
def saveSettingsDdp (req : SaveRequest) (ddp : String) : String :=
  if req.defaultPath = "" then ddp else req.defaultPath

/-! ## Filename determination (`chrome.downloads.onDeterminingFilename`) -/

/-- The two storage keys the filename-determination listener reads.  The
whole read result is itself optional: `none` models a failed retrieval
handing the callback an unusable value. -/
structure DfRead where
  silentDownloads : Option Bool
  defaultPath : Option String
deriving DecidableEq

/-- Outcome passed to the host `suggest` callback: either the empty object
`suggest({})` deferring to the browser default, or a concrete
`{filename, conflictAction}` suggestion. -/
inductive Suggestion where
  | hostDefault
  | target (filename : String) (conflictAction : String)
deriving DecidableEq

/-- Body of the filename-determination callback before its `try`/`catch`
is applied: faithful transcription of `background.js` lines 115-140.
Property accesses that throw in JavaScript (reading a field of an absent
result, calling a string method on a null `downloadItem.filename`)
surface as `Except.error`. -/
def determineFilenameInner (res : Option DfRead) (fname : Option String)
    (ddp : String) : Except String Suggestion :=
  match res with
  | none => .error "TypeError: cannot read properties of undefined"
  | some r =>
    if jsTruthy r.silentDownloads then
      match fname with
      | none => .error "TypeError: cannot read properties of null"
      | some f =>
        let customPath :=
          match r.defaultPath with
          | some s => if s = "" then ddp else s
          | none => ddp
        let pathSeparator : Char := if strContains f "/" then '/' else '\\'
        let filename := lastSegAfter pathSeparator f
        let targetPath :=
          if customPath = "" then filename
          else customPath ++ ⟨[pathSeparator]⟩ ++ filename
        .ok (.target targetPath "uniquify")
    else
      .ok .hostDefault

/-- The filename-determination callback with its `catch` applied: an
exception in the body is converted into the fallback `suggest({})`. -/
def determineFilename (res : Option DfRead) (fname : Option String)
    (ddp : String) : Suggestion :=
  match determineFilenameInner res fname ddp with
  | .ok s => s
  | .error _ => .hostDefault

/-! ## Spec-side decomposition of the target-path computation -/

/-- Separator selection of the listener: `/` when the host-suggested path
contains one, otherwise a backslash. -/
def sepOf (f : String) : Char :=
  if strContains f "/" then '/' else '\\'

/-- Last path segment of the host-suggested path, split on `sepOf f`. -/
def lastSegOf (f : String) : String :=
  lastSegAfter (sepOf f) f

/-- Effective default directory: the stored `defaultPath` when truthy,
otherwise the module-global `defaultDownloadPath`. -/
def effectiveDir (dp : Option String) (ddp : String) : String :=
  match dp with
  | some s => if s = "" then ddp else s
  | none => ddp

/-- Target-path join of the listener: directory and filename joined with
the separator when the directory is nonempty, the bare filename
otherwise. -/
def joinTarget (dir : String) (sep : Char) (file : String) : String :=
  if dir = "" then file else dir ++ ⟨[sep]⟩ ++ file

/-! ## Host notification sweeps (`onCreated` and `onChanged` listeners) -/

/-- A host notification as seen through `chrome.notifications.getAll`:
title and message may each be absent. -/
structure HostNotif where
  title : Option String
  message : Option String
deriving DecidableEq

/-- Keyword list of the `onCreated` listener (`background.js` line 164). -/
def downloadKeywords : List String :=
  ["download", "save", "complete", "finish"]

/-- Keyword test applied to one optional text field: absent (or null)
text never matches; present text is lowercased and checked for each
keyword as a substring. -/
def fieldMatches (keywords : List String) (field : Option String) : Bool :=
  match field with
  | some s => keywords.any (fun k => strContains (lowerStr s) k)
  | none => false

/-- Per-notification test of the `onCreated` listener: title match OR
message match against `downloadKeywords`. -/
def notifDownloadRelated (n : HostNotif) : Bool :=
  fieldMatches downloadKeywords n.title || fieldMatches downloadKeywords n.message

/-- Identifiers cleared by the `chrome.downloads.onCreated` listener,
given the storage read and the `getAll` result (`none` models a falsy
`notifications` argument, on which the callback returns at once). -/
def onCreatedClearedIds (silent hide : Option Bool)
    (notifs : Option (List (String × HostNotif))) : List String :=
  if jsTruthy silent && jsNotFalse hide then
    match notifs with
    | none => []
    | some ns => (ns.filter (fun p => notifDownloadRelated p.2)).map Prod.fst
  else []

/-- Delay in milliseconds before the completion sweep of the `onChanged`
listener enumerates notifications (`setTimeout(..., 500)`). -/
def completionSweepDelayMs : Nat := 500

/-- Identifiers cleared by the delayed sweep of the
`chrome.downloads.onChanged` listener: when both settings gates pass and
the state delta is a transition to `complete`, every key of the `getAll`
result is cleared, with no inspection of titles or messages. -/
def onChangedClearedIds (silent hide : Option Bool)
    (stateCurrent : Option String)
    (notifs : List (String × HostNotif)) : List String :=
  if jsTruthy silent && jsNotFalse hide then
    if stateCurrent = some "complete" then notifs.map Prod.fst
    else []
  else []

/-- Keyword set named by the specification for the completion sweep
(`download, save, complete, finish, downloaded, finished`), kept separate
from the code-derived `downloadKeywords` for comparison. -/
def specSweepKeywords : List String :=
  ["download", "save", "complete", "finish", "downloaded", "finished"]

/-! ## Log store (`logMessage` in `background.js`) -/

/-- A record of the `errorLogs` collection in `chrome.storage.local`. -/
structure LogEntry where
  timestamp : String
  level : String
  message : String
  data : Option String
deriving DecidableEq

/-- Severity levels accepted by `logMessage`. -/
inductive LogLevel where
  | info
  | warn
  | error
deriving DecidableEq

/-- The string stored in a log entry's `level` field. -/
def LogLevel.str : LogLevel → String
  | .info => "info"
  | .warn => "warn"
  | .error => "error"

/-- Push-then-cap step of `logMessage` on the stored list: `logs.push(e)`
followed by `if (logs.length > 50) logs.shift()`. -/
def pushCap (e : LogEntry) (logs : List LogEntry) : List LogEntry :=
  if 50 < (logs ++ [e]).length then (logs ++ [e]).tail else logs ++ [e]

/-- Effect of one `logMessage(level, message, data)` call on the stored
`errorLogs` list (`data` is already in its serialized form, `none` for a
null payload).  Only `error` and `warn` touch the store. -/
def logMessageStore (timestamp : String) (level : LogLevel) (message : String)
    (data : Option String) (logs : List LogEntry) : List LogEntry :=
  if level = .error ∨ level = .warn then
    pushCap ⟨timestamp, level.str, message, data⟩ logs
  else logs

/-! ## Content script: mutation-batch classification -/

/-- The attributes of an added DOM element that the MutationObserver
callback inspects.  `descendants` lists the raw `class`/`id` attribute
pairs of the element's subtree, as probed by
`element.querySelectorAll('[class*="download"], [id*="download"]')`. -/
structure DomElem where
  className : String
  id : String
  role : Option String
  textContent : String
  descendants : List (String × String)
deriving DecidableEq

/-- A node delivered in `mutation.addedNodes`: an element, or a
non-element node the callback skips (`node.nodeType !== 1`). -/
inductive DomNode where
  | elem (e : DomElem)
  | nonElement
deriving DecidableEq

/-- Keyword list of the MutationObserver callback. -/
def mutationKeywords : List String :=
  ["download", "downloaded", "complete", "saved"]

/-- Per-element classification of the MutationObserver callback: the
direct class/id/semantics checks, falling through to the subtree probe
for download-flavored class or id attributes. -/
def classifyElem (e : DomElem) : Bool :=
  let className := lowerStr e.className
  let id := lowerStr e.id
  let text := lowerStr e.textContent
  let textHasKeywords := mutationKeywords.any (fun k => strContains text k)
  if strContains className "download" ||
      strContains id "download" ||
      (strContains className "notification" && textHasKeywords) ||
      (strContains className "toast" && textHasKeywords) ||
      (e.role == some "alert" && textHasKeywords) then
    true
  else
    e.descendants.any (fun d => strContains d.1 "download" || strContains d.2 "download")

/-- Classification result of one `DomNode`: non-element nodes never
match. -/
def nodeMatches : DomNode → Bool
  | .elem e => classifyElem e
  | .nonElement => false

/-- Walk of one mutation's `addedNodes` with the callback's `break`:
returns the `shouldHide` flag together with the number of elements whose
classification was evaluated before the walk stopped. -/
def scanNodes : List DomNode → Bool × Nat
  | [] => (false, 0)
  | .nonElement :: rest => scanNodes rest
  | .elem e :: rest =>
    if classifyElem e then (true, 1)
    else ((scanNodes rest).1, (scanNodes rest).2 + 1)

/-- Walk of a whole mutation batch with the outer `break`: once a
mutation sets `shouldHide`, the remaining mutations are not examined. -/
def scanMutations : List (List DomNode) → Bool × Nat
  | [] => (false, 0)
  | m :: rest =>
    if (scanNodes m).1 then (true, (scanNodes m).2)
    else ((scanMutations rest).1, (scanNodes m).2 + (scanMutations rest).2)

/-! ## Content script: in-page Notification constructor override -/

/-- Keyword list of `isDownloadNotification` in the content script. -/
def notifOverrideKeywords : List String :=
  ["download", "downloaded", "downloading", "complete", "saved",
   "finished", "file", ".zip", ".pdf", ".exe", ".dmg"]

/-- The `isDownloadNotification(title, options)` check: a non-string or
absent title (body) is skipped; a string one is lowercased and matched
against every keyword. -/
def isDownloadNotification (title body : Option String) : Bool :=
  (match title with
   | some t => notifOverrideKeywords.any (fun k => strContains (lowerStr t) k)
   | none => false) ||
  (match body with
   | some b => notifOverrideKeywords.any (fun k => strContains (lowerStr b) k)
   | none => false)

/-- What a `new Notification(title, options)` call produces under the
override: the inert no-op object, or a real host notification. -/
inductive NotifConstructed where
  | noop
  | real (title : Option String) (body : Option String)
deriving DecidableEq

/-- The overridden `window.Notification` constructor. -/
def notificationOverride (title body : Option String) : NotifConstructed :=
  if isDownloadNotification title body then .noop
  else .real title body

/-! ## Content script: console.log / console.info overrides -/

/-- One argument to a console call, as far as `isDownloadMessage`
distinguishes them: a string, an object with its `JSON.stringify` result
(`none` when serialization throws), or anything else. -/
inductive ConsoleArg where
  | str (s : String)
  | obj (serialized : Option String)
  | other
deriving DecidableEq

/-- The per-argument text `isDownloadMessage` extracts before joining. -/
def consoleArgText : ConsoleArg → String
  | .str s => lowerStr s
  | .obj (some j) => lowerStr j
  | .obj none => ""
  | .other => ""

/-- `isDownloadMessage(args)`: empty argument lists never match; otherwise
the per-argument texts are joined with single spaces and searched for the
substring `download`. -/
def isDownloadMessage (args : List ConsoleArg) : Bool :=
  match args with
  | [] => false
  | _ =>
    strContains (String.intercalate " " (args.map consoleArgText)) "download"

/-- The `[Silent Downloads]` exemption of the `console.log` override:
the first argument must be a truthy string containing the marker. -/
def markerExempt (args : List ConsoleArg) : Bool :=
  match args with
  | .str s :: _ => (!(s = "")) && strContains s "[Silent Downloads]"
  | _ => false

/-- Whether the overridden `console.log` forwards the call to the
original implementation. -/
def consoleLogEmits (args : List ConsoleArg) : Bool :=
  if markerExempt args then true
  else !(isDownloadMessage args)

/-- Whether the overridden `console.info` forwards the call to the
original implementation. -/
def consoleInfoEmits (args : List ConsoleArg) : Bool :=
  !(isDownloadMessage args)

/-! ## Helper lemmas -/

/-- One push-then-cap step keeps the stored list within the 50-entry cap. -/
lemma pushCap_length_le (e : LogEntry) (logs : List LogEntry)
    (h : logs.length ≤ 50) : (pushCap e logs).length ≤ 50 := by
  unfold pushCap
  split
  · simpa using h
  · rename_i hlt
    simp only [List.length_append, List.length_cons, List.length_nil] at hlt ⊢
    omega

/-- Folding push-then-cap steps from a list within the cap retains
exactly the most recent entries: the suffix left after dropping the
overflow from the front. -/
lemma foldl_pushCap (es : List LogEntry) : ∀ init : List LogEntry,
    init.length ≤ 50 →
    es.foldl (fun acc e => pushCap e acc) init
      = (init ++ es).drop (init.length + es.length - 50) := by
  induction es with
  | nil =>
    intro init h
    simp [Nat.sub_eq_zero_of_le h]
  | cons e es ih =>
    intro init h
    rw [List.foldl_cons]
    rcases Nat.lt_or_ge init.length 50 with hlt | hge
    · have hstep : pushCap e init = init ++ [e] := by
        unfold pushCap
        rw [if_neg]
        simp only [List.length_append, List.length_cons, List.length_nil]
        omega
      have hlen : (init ++ [e]).length ≤ 50 := by
        simp only [List.length_append, List.length_cons, List.length_nil]
        omega
      rw [hstep, ih _ hlen]
      have h2 : (init ++ [e]).length + es.length - 50
          = init.length + (e :: es).length - 50 := by
        simp only [List.length_append, List.length_cons, List.length_nil]
        omega
      rw [h2, List.append_assoc, List.singleton_append]
    · have heq : init.length = 50 := le_antisymm h hge
      cases init with
      | nil => simp at heq
      | cons a t =>
        have htlen : t.length = 49 := by
          simp only [List.length_cons] at heq
          omega
        have hc : 50 < ((a :: t) ++ [e]).length := by
          simp only [List.length_append, List.length_cons, List.length_nil, htlen]
          omega
        have hstep : pushCap e (a :: t) = t ++ [e] := by
          unfold pushCap
          rw [if_pos hc]
          simp [List.cons_append]
        have hlen : (t ++ [e]).length ≤ 50 := by
          simp only [List.length_append, List.length_cons, List.length_nil, htlen]
          omega
        rw [hstep, ih _ hlen]
        have h3 : (t ++ [e]).length + es.length - 50 = es.length := by
          simp only [List.length_append, List.length_cons, List.length_nil, htlen]
          omega
        have h4 : (a :: t).length + (e :: es).length - 50 = es.length + 1 := by
          simp only [List.length_cons, htlen]
          omega
        rw [h3, List.append_assoc, List.singleton_append, List.cons_append, h4,
          List.drop_succ_cons]

/-! ## Claim theorems -/

/-- C5: an entry is appended to the log store exactly for the `warn` and
`error` levels; the store never grows past 50 entries and eviction
removes the oldest entry first; appending 60 sequential warn entries to
an empty store leaves exactly the 50 most recent in chronological order. -/
theorem c5_log_store_capped :
    (∀ ts msg d logs, logMessageStore ts .info msg d logs = logs) ∧
    (∀ lvl ts msg d logs, lvl = LogLevel.warn ∨ lvl = LogLevel.error →
      logMessageStore ts lvl msg d logs = pushCap ⟨ts, lvl.str, msg, d⟩ logs) ∧
    (∀ ts lvl msg d logs, logs.length ≤ 50 →
      (logMessageStore ts lvl msg d logs).length ≤ 50) ∧
    (∀ e logs, logs.length = 50 → pushCap e logs = logs.tail ++ [e]) ∧
    (∀ e logs, logs.length < 50 → pushCap e logs = logs ++ [e]) ∧
    (∀ args : List (String × String × Option String), args.length = 60 →
      args.foldl (fun logs a => logMessageStore a.1 .warn a.2.1 a.2.2 logs) []
        = (args.map (fun a => (⟨a.1, "warn", a.2.1, a.2.2⟩ : LogEntry))).drop 10) := by
  refine ⟨?_, ?_, ?_, ?_, ?_, ?_⟩
  · intro ts msg d logs
    simp [logMessageStore]
  · intro lvl ts msg d logs h
    rcases h with rfl | rfl <;> simp [logMessageStore]
  · intro ts lvl msg d logs h
    unfold logMessageStore
    split
    · exact pushCap_length_le _ _ h
    · exact h
  · intro e logs h
    unfold pushCap
    rw [if_pos (by simp [h])]
    cases logs with
    | nil => simp at h
    | cons a t => simp [List.cons_append]
  · intro e logs h
    unfold pushCap
    rw [if_neg]
    simp only [List.length_append, List.length_cons, List.length_nil]
    omega
  · intro args h
    have hfun : (fun (logs : List LogEntry) (a : String × String × Option String) =>
        logMessageStore a.1 .warn a.2.1 a.2.2 logs)
        = fun logs a => pushCap ⟨a.1, "warn", a.2.1, a.2.2⟩ logs := by
      funext logs a
      simp [logMessageStore, LogLevel.str]
    rw [hfun, ← List.foldl_map (f := fun a : String × String × Option String =>
      (⟨a.1, "warn", a.2.1, a.2.2⟩ : LogEntry))
      (g := fun acc e => pushCap e acc)]
    rw [foldl_pushCap _ [] (by simp)]
    simp [h]

/-- C5 witness: the warn-level append and the 60-entry eviction scenario
at concrete inputs. -/
theorem c5_log_store_capped_witness :
    logMessageStore "t0" .warn "m0" none [] = pushCap ⟨"t0", "warn", "m0", none⟩ [] ∧
    ((List.range 60).map (fun i => (toString i, toString i, (none : Option String)))).foldl
      (fun logs a => logMessageStore a.1 .warn a.2.1 a.2.2 logs) []
      = (((List.range 60).map (fun i => (toString i, toString i, (none : Option String)))).map
          (fun a => (⟨a.1, "warn", a.2.1, a.2.2⟩ : LogEntry))).drop 10 := by
  constructor
  · exact c5_log_store_capped.2.1 LogLevel.warn "t0" "m0" none [] (Or.inl rfl)
  · exact c5_log_store_capped.2.2.2.2.2 _ (by simp)

/-- C1 (amended): with `silentDownloads` enabled the filename-determination
listener suggests, with conflict action `uniquify`, the effective default
directory joined with the last segment of the host-suggested path using the
separator appearing in that path whenever that directory is nonempty, and
the bare last segment when it is empty; in particular the
`MyDownloads/report.pdf` instance holds. -/
theorem c1_filename_redirect :
    (∀ dp ddp f, determineFilename (some ⟨some true, dp⟩) (some f) ddp
      = .target (joinTarget (effectiveDir dp ddp) (sepOf f) (lastSegOf f)) "uniquify") ∧
    (∀ dir sep file, dir ≠ "" → joinTarget dir sep file = dir ++ (⟨[sep]⟩ : String) ++ file) ∧
    determineFilename (some ⟨some true, some "MyDownloads"⟩) (some "/tmp/x/report.pdf") ""
      = .target "MyDownloads/report.pdf" "uniquify" := by
  refine ⟨?_, ?_, by decide⟩
  · intro dp ddp f
    rfl
  · intro dir sep file h
    simp [joinTarget, h]

/-- C1 witness: the nonempty-directory join conjunct at concrete input. -/
theorem c1_filename_redirect_witness :
    joinTarget "MyDownloads" '/' "report.pdf"
      = "MyDownloads" ++ (⟨['/']⟩ : String) ++ "report.pdf" :=
  c1_filename_redirect.2.1 "MyDownloads" '/' "report.pdf" (by decide)

/-- C1 counterexample: with `silentDownloads` stored true, `defaultPath`
stored as the empty string (the value `onInstalled` writes) and the
inferred `defaultDownloadPath` still empty, the host-suggested path
`/tmp/x/report.pdf` contains the separator `/` yet the listener suggests
the bare `report.pdf`, not the empty directory joined with the last
segment (`/report.pdf`). -/
theorem c1_filename_redirect_counterexample :
    determineFilename (some ⟨some true, some ""⟩) (some "/tmp/x/report.pdf") ""
        = .target "report.pdf" "uniquify" ∧
    strContains "/tmp/x/report.pdf" "/" = true ∧
    ("" ++ "/" ++ "report.pdf" = "/report.pdf") ∧
    Suggestion.target "report.pdf" "uniquify" ≠ .target "/report.pdf" "uniquify" := by
  refine ⟨by decide, by decide, by decide, by decide⟩

/-- C8: a failed settings retrieval or an exception anywhere in the
filename computation makes the listener call `suggest` with the empty
suggestion (host default) instead of letting the exception escape; on
every input the listener produces a suggestion. -/
theorem c8_exception_fallback :
    (∀ fname ddp, determineFilename none fname ddp = .hostDefault) ∧
    (∀ res fname ddp e, determineFilenameInner res fname ddp = .error e →
      determineFilename res fname ddp = .hostDefault) ∧
    (∀ res fname ddp,
      (∃ s, determineFilenameInner res fname ddp = .ok s ∧
        determineFilename res fname ddp = s) ∨
      (∃ e, determineFilenameInner res fname ddp = .error e ∧
        determineFilename res fname ddp = .hostDefault)) := by
  refine ⟨?_, ?_, ?_⟩
  · intro fname ddp
    rfl
  · intro res fname ddp e h
    unfold determineFilename
    rw [h]
  · intro res fname ddp
    cases hm : determineFilenameInner res fname ddp with
    | ok s =>
      left
      refine ⟨s, rfl, ?_⟩
      unfold determineFilename
      rw [hm]
    | error e =>
      right
      refine ⟨e, rfl, ?_⟩
      unfold determineFilename
      rw [hm]

/-- C8 witness: the exception branch at a concrete input (a null
`downloadItem.filename` with `silentDownloads` enabled). -/
theorem c8_exception_fallback_witness :
    determineFilename (some ⟨some true, none⟩) none "" = .hostDefault :=
  c8_exception_fallback.2.1 (some ⟨some true, none⟩) none ""
    "TypeError: cannot read properties of null" rfl

/-- C3 (amended): a `saveSettings` request followed by `getSettings`
returns the five persisted fields (`silentDownloads`, `defaultPath`,
`hideNotifications`, `hideDownloadBar`, `autoStart`) exactly as saved;
`conflictAction` is never persisted and never appears in the response. -/
theorem c3_roundtrip_five_fields :
    ∀ (req : SaveRequest) (st : SyncStorage) (ddp : String),
      (getSettingsResponse (saveSettingsApply req st) (saveSettingsDdp req ddp)).silentDownloads
          = req.silentDownloads ∧
      (getSettingsResponse (saveSettingsApply req st) (saveSettingsDdp req ddp)).defaultPath
          = req.defaultPath ∧
      (getSettingsResponse (saveSettingsApply req st) (saveSettingsDdp req ddp)).hideNotifications
          = req.hideNotifications ∧
      (getSettingsResponse (saveSettingsApply req st) (saveSettingsDdp req ddp)).hideDownloadBar
          = req.hideDownloadBar ∧
      (getSettingsResponse (saveSettingsApply req st) (saveSettingsDdp req ddp)).autoStart
          = req.autoStart ∧
      (getSettingsResponse (saveSettingsApply req st) (saveSettingsDdp req ddp)).conflictAction
          = none := by
  intro req st ddp
  obtain ⟨sd, dp, hn, hb, auto, ca⟩ := req
  refine ⟨?_, rfl, ?_, ?_, ?_, rfl⟩ <;>
    first
      | (cases sd <;> rfl)
      | (cases hn <;> rfl)
      | (cases hb <;> rfl)
      | (cases auto <;> rfl)

/-- C3 counterexample: saving a request whose `conflictAction` is
`overwrite` and reading the settings back yields a response with no
`conflictAction` value at all, so the round-trip is not equal to the
request on that field. -/
theorem c3_roundtrip_counterexample :
    (getSettingsResponse
        (saveSettingsApply ⟨true, "MyDownloads", true, true, true, some "overwrite"⟩
          ⟨none, none, none, none, none, none⟩)
        (saveSettingsDdp ⟨true, "MyDownloads", true, true, true, some "overwrite"⟩ "")).conflictAction
        = none ∧
    (getSettingsResponse
        (saveSettingsApply ⟨true, "MyDownloads", true, true, true, some "overwrite"⟩
          ⟨none, none, none, none, none, none⟩)
        (saveSettingsDdp ⟨true, "MyDownloads", true, true, true, some "overwrite"⟩ "")).conflictAction
        ≠ (⟨true, "MyDownloads", true, true, true, some "overwrite"⟩ : SaveRequest).conflictAction := by
  refine ⟨rfl, by decide⟩

/-- C4 (amended): `getSettings` reports `true` for every boolean settings
field absent from storage, and the download listeners treat an absent
`hideNotifications` as enabled; but the listeners test `silentDownloads`
for truthiness, so when it is absent filename determination defers to the
host default and no notification is cleared — not the behavior of the
field stored as `true`. -/
theorem c4_absent_boolean_defaults :
    (∀ dp hn hb auto ca ddp,
      (getSettingsResponse ⟨none, dp, hn, hb, auto, ca⟩ ddp).silentDownloads = true) ∧
    (∀ sd dp hb auto ca ddp,
      (getSettingsResponse ⟨sd, dp, none, hb, auto, ca⟩ ddp).hideNotifications = true) ∧
    (∀ sd dp hn auto ca ddp,
      (getSettingsResponse ⟨sd, dp, hn, none, auto, ca⟩ ddp).hideDownloadBar = true) ∧
    (∀ sd dp hn hb ca ddp,
      (getSettingsResponse ⟨sd, dp, hn, hb, none, ca⟩ ddp).autoStart = true) ∧
    (∀ dp fname ddp, determineFilename (some ⟨none, dp⟩) fname ddp = .hostDefault) ∧
    (∀ hide notifs, onCreatedClearedIds none hide notifs = []) ∧
    (∀ hide st notifs, onChangedClearedIds none hide st notifs = []) ∧
    (∀ silent notifs,
      onCreatedClearedIds silent none notifs = onCreatedClearedIds silent (some true) notifs) ∧
    (∀ silent st notifs,
      onChangedClearedIds silent none st notifs = onChangedClearedIds silent (some true) st notifs) := by
  exact ⟨fun _ _ _ _ _ _ => rfl, fun _ _ _ _ _ _ => rfl, fun _ _ _ _ _ _ => rfl,
    fun _ _ _ _ _ _ => rfl, fun _ _ _ => rfl, fun _ _ => rfl, fun _ _ _ => rfl,
    fun _ _ => rfl, fun _ _ _ => rfl⟩

/-- C4 counterexample: with `silentDownloads` absent from storage,
`getSettings` answers `true` for it, yet the filename-determination
listener defers to the host default — a different suggestion than the one
produced with the field stored as `true`, contradicting the claim that
every reader behaves as if the absent field were `true`. -/
theorem c4_absent_boolean_counterexample :
    (getSettingsResponse ⟨none, some "MyDownloads", none, none, none, none⟩ "").silentDownloads
        = true ∧
    determineFilename (some ⟨none, some "MyDownloads"⟩) (some "/tmp/x/report.pdf") ""
        = .hostDefault ∧
    determineFilename (some ⟨some true, some "MyDownloads"⟩) (some "/tmp/x/report.pdf") ""
        = .target "MyDownloads/report.pdf" "uniquify" ∧
    Suggestion.hostDefault ≠ .target "MyDownloads/report.pdf" "uniquify" := by
  refine ⟨rfl, rfl, by decide, by decide⟩

/-- C2 (amended): on a state transition to `complete` with
`silentDownloads` enabled and `hideNotifications` not disabled, the
delayed sweep (scheduled 500ms after the transition) dismisses every
currently active host notification, regardless of its title or message;
on any other state delta nothing is cleared. -/
theorem c2_completion_sweep :
    (∀ silent hide st notifs, jsTruthy silent = true → jsNotFalse hide = true →
      st = some "complete" →
      onChangedClearedIds silent hide st notifs = notifs.map Prod.fst) ∧
    (∀ silent hide st notifs, st ≠ some "complete" →
      onChangedClearedIds silent hide st notifs = []) ∧
    completionSweepDelayMs = 500 := by
  refine ⟨?_, ?_, rfl⟩
  · intro silent hide st notifs h1 h2 h3
    simp [onChangedClearedIds, h1, h2, h3]
  · intro silent hide st notifs h
    simp [onChangedClearedIds, h]

/-- C2 witness: the completion sweep at a concrete input clears the
listed notification identifiers. -/
theorem c2_completion_sweep_witness :
    onChangedClearedIds (some true) (some true) (some "complete")
      [("a", ⟨some "Download Complete", none⟩), ("b", ⟨some "Calendar", none⟩)]
      = ["a", "b"] :=
  c2_completion_sweep.1 (some true) (some true) (some "complete")
    [("a", ⟨some "Download Complete", none⟩), ("b", ⟨some "Calendar", none⟩)]
    rfl rfl rfl

/-- C2 counterexample: with both settings enabled and a transition to
`complete`, a notification whose title and message match none of the six
spec keywords is nevertheless cleared by the sweep, contradicting the
claim that such notifications are left in place. -/
theorem c2_completion_sweep_counterexample :
    onChangedClearedIds (some true) (some true) (some "complete")
      [("n1", ⟨some "Meeting reminder", some "Team standup at 10am"⟩)] = ["n1"] ∧
    specSweepKeywords.all (fun k =>
      !(strContains (lowerStr "Meeting reminder") k) &&
      !(strContains (lowerStr "Team standup at 10am") k)) = true := by
  refine ⟨by decide, by decide⟩

/-- C6: the download-notification predicate of the `onCreated` listener is
a case-insensitive substring match, OR-combined over the fixed keyword
list across title and message; a `Download Complete` title is dismissed,
a `Meeting reminder` title with no matching message is not, and under the
settings gates the listener clears exactly the matching notifications. -/
theorem c6_notification_match :
    (∀ m, notifDownloadRelated ⟨some "Download Complete", m⟩ = true) ∧
    notifDownloadRelated ⟨some "Meeting reminder", none⟩ = false ∧
    (∀ t m, notifDownloadRelated ⟨t, m⟩ = true ↔
      ∃ k ∈ downloadKeywords,
        (∃ s, t = some s ∧ strContains (lowerStr s) k = true) ∨
        (∃ s, m = some s ∧ strContains (lowerStr s) k = true)) ∧
    (∀ silent hide ns, jsTruthy silent = true → jsNotFalse hide = true →
      onCreatedClearedIds silent hide (some ns)
        = (ns.filter (fun p => notifDownloadRelated p.2)).map Prod.fst) := by
  refine ⟨?_, by decide, ?_, ?_⟩
  · intro m
    have h : fieldMatches downloadKeywords (some "Download Complete") = true := by decide
    simp [notifDownloadRelated, h]
  · intro t m
    cases t <;> cases m <;>
      simp [notifDownloadRelated, fieldMatches, List.any_eq_true, and_or_left, exists_or]
  · intro silent hide ns h1 h2
    simp [onCreatedClearedIds, h1, h2]

/-- C6 witness: the clearing conjunct at a concrete notification list. -/
theorem c6_notification_match_witness :
    onCreatedClearedIds (some true) (some true)
      (some [("a", ⟨some "Download Complete", none⟩), ("b", ⟨some "Meeting reminder", none⟩)])
      = ([("a", (⟨some "Download Complete", none⟩ : HostNotif)),
          ("b", ⟨some "Meeting reminder", none⟩)].filter
            (fun p => notifDownloadRelated p.2)).map Prod.fst :=
  c6_notification_match.2.2.2 (some true) (some true)
    [("a", ⟨some "Download Complete", none⟩), ("b", ⟨some "Meeting reminder", none⟩)]
    rfl rfl

/-- Helper: the `shouldHide` flag of one mutation's node walk agrees with
an `any` over the added nodes. -/
lemma scanNodes_fst (ns : List DomNode) : (scanNodes ns).1 = ns.any nodeMatches := by
  induction ns with
  | nil => rfl
  | cons n rest ih =>
    cases n with
    | nonElement => simpa [scanNodes, nodeMatches] using ih
    | elem e =>
      by_cases h : classifyElem e = true
      · simp [scanNodes, nodeMatches, h]
      · simp [scanNodes, nodeMatches, h, ih]

/-- C7: a mutation batch is flagged exactly when some newly added element
classifies as download-related; an element classifies as download-related
exactly when its class or id contains `download`, or it carries
notification/toast class or alert role and its text contains one of the
keywords, or some descendant carries a download-flavored class or id;
and the walk stops at the first matching element, leaving later
mutations unexamined. -/
theorem c7_mutation_batch :
    (∀ ms : List (List DomNode), (scanMutations ms).1 = ms.any (fun m => m.any nodeMatches)) ∧
    (∀ e, classifyElem e = true ↔
      (strContains (lowerStr e.className) "download" = true ∨
       strContains (lowerStr e.id) "download" = true ∨
       ((strContains (lowerStr e.className) "notification" = true ∨
         strContains (lowerStr e.className) "toast" = true ∨
         e.role = some "alert") ∧
        ∃ k ∈ mutationKeywords, strContains (lowerStr e.textContent) k = true) ∨
       ∃ d ∈ e.descendants,
         (strContains d.1 "download" = true ∨ strContains d.2 "download" = true))) ∧
    (∀ ms extra : List (List DomNode), (scanMutations ms).1 = true →
      scanMutations (ms ++ extra) = scanMutations ms) := by
  refine ⟨?_, ?_, ?_⟩
  · intro ms
    induction ms with
    | nil => rfl
    | cons m rest ih =>
      by_cases h : (scanNodes m).1 = true
      · simp [scanMutations, List.any_cons, ← scanNodes_fst, h]
      · simp [scanMutations, List.any_cons, ← scanNodes_fst, h, ih]
  · intro e
    have hsplit : ∀ c d : Bool, (if c then true else d) = (c || d) := by decide
    simp only [classifyElem, hsplit]
    simp only [Bool.or_eq_true, Bool.and_eq_true, List.any_eq_true, beq_iff_eq]
    constructor
    · rintro (((((h | h) | ⟨h1, h2⟩) | ⟨h1, h2⟩) | ⟨h1, h2⟩) | h)
      · exact Or.inl h
      · exact Or.inr (Or.inl h)
      · exact Or.inr (Or.inr (Or.inl ⟨Or.inl h1, h2⟩))
      · exact Or.inr (Or.inr (Or.inl ⟨Or.inr (Or.inl h1), h2⟩))
      · exact Or.inr (Or.inr (Or.inl ⟨Or.inr (Or.inr h1), h2⟩))
      · exact Or.inr (Or.inr (Or.inr h))
    · rintro (h | h | ⟨h1 | h1 | h1, h2⟩ | h)
      · exact Or.inl (Or.inl (Or.inl (Or.inl (Or.inl h))))
      · exact Or.inl (Or.inl (Or.inl (Or.inl (Or.inr h))))
      · exact Or.inl (Or.inl (Or.inl (Or.inr ⟨h1, h2⟩)))
      · exact Or.inl (Or.inl (Or.inr ⟨h1, h2⟩))
      · exact Or.inl (Or.inr ⟨h1, h2⟩)
      · exact Or.inr h
  · intro ms extra
    induction ms with
    | nil =>
      intro h
      simp [scanMutations] at h
    | cons m rest ih =>
      intro h
      rw [List.cons_append]
      by_cases hb : (scanNodes m).1 = true
      · unfold scanMutations
        rw [if_pos hb, if_pos hb]
      · unfold scanMutations at h
        rw [if_neg hb] at h
        simp only at h
        unfold scanMutations
        rw [if_neg hb, if_neg hb, ih h]

/-- C7 witness: a batch whose first mutation adds a matching element is
flagged, and appending further mutations changes neither the flag nor the
number of examined elements. -/
theorem c7_mutation_batch_witness :
    scanMutations ([[DomNode.elem ⟨"download-shelf", "", none, "", []⟩]]
        ++ [[DomNode.elem ⟨"widget", "", none, "hello", []⟩]])
      = scanMutations [[DomNode.elem ⟨"download-shelf", "", none, "", []⟩]] :=
  c7_mutation_batch.2.2 [[DomNode.elem ⟨"download-shelf", "", none, "", []⟩]]
    [[DomNode.elem ⟨"widget", "", none, "hello", []⟩]] (by decide)

/-- C9: after the content script installs its console overrides, a
`console.log` call whose joined lowercased arguments contain `download`
produces no output unless its first argument is a string containing
`[Silent Downloads]`, which is always passed through; `console.info` is
suppressed under the same download-substring condition with no such
exemption. -/
theorem c9_console_filtering :
    (∀ args, markerExempt args = true → consoleLogEmits args = true) ∧
    (∀ args, markerExempt args = false →
      consoleLogEmits args = !(isDownloadMessage args)) ∧
    (∀ args, consoleInfoEmits args = !(isDownloadMessage args)) ∧
    (∀ args, args ≠ [] → (isDownloadMessage args = true ↔
      strContains (String.intercalate " " (args.map consoleArgText)) "download" = true)) ∧
    consoleLogEmits [.str "[Silent Downloads] download processed"] = true ∧
    consoleInfoEmits [.str "[Silent Downloads] download processed"] = false ∧
    consoleLogEmits [.str "Download started"] = false := by
  refine ⟨?_, ?_, fun _ => rfl, ?_, by decide, by decide, by decide⟩
  · intro args h
    simp [consoleLogEmits, h]
  · intro args h
    simp [consoleLogEmits, h]
  · intro args h
    cases args with
    | nil => simp at h
    | cons a rest => exact Iff.rfl

/-- C9 witness: the marker exemption, the non-marker filtering equation
and the joined-substring characterization at concrete inputs. -/
theorem c9_console_filtering_witness :
    consoleLogEmits [ConsoleArg.str "[Silent Downloads] ready"] = true ∧
    consoleLogEmits [ConsoleArg.str "plain message"]
      = !(isDownloadMessage [ConsoleArg.str "plain message"]) ∧
    (isDownloadMessage [ConsoleArg.str "Download started"] = true ↔
      strContains (String.intercalate " "
        ([ConsoleArg.str "Download started"].map consoleArgText)) "download" = true) := by
  refine ⟨c9_console_filtering.1 _ (by decide), c9_console_filtering.2.1 _ (by decide),
    c9_console_filtering.2.2.2.1 _ (by decide)⟩

/-- C10: the in-page Notification override suppresses, in addition to the
download keywords and file-extension tokens, any construction whose title
or body contains `file` or `downloading` case-insensitively; constructing
a Notification titled `New file shared` yields the no-op object. -/
theorem c10_notification_override :
    ("file" ∈ notifOverrideKeywords ∧ "downloading" ∈ notifOverrideKeywords) ∧
    (∀ t b, strContains (lowerStr t) "file" = true →
      notificationOverride (some t) b = .noop) ∧
    (∀ t b, strContains (lowerStr t) "downloading" = true →
      notificationOverride (some t) b = .noop) ∧
    (∀ t b, strContains (lowerStr b) "file" = true →
      notificationOverride t (some b) = .noop) ∧
    notificationOverride (some "New file shared") none = .noop := by
  refine ⟨⟨by decide, by decide⟩, ?_, ?_, ?_, by decide⟩
  · intro t b h
    have hx : notifOverrideKeywords.any (fun k => strContains (lowerStr t) k) = true :=
      List.any_eq_true.mpr ⟨"file", by decide, h⟩
    simp [notificationOverride, isDownloadNotification, hx]
  · intro t b h
    have hx : notifOverrideKeywords.any (fun k => strContains (lowerStr t) k) = true :=
      List.any_eq_true.mpr ⟨"downloading", by decide, h⟩
    simp [notificationOverride, isDownloadNotification, hx]
  · intro t b h
    have hx : notifOverrideKeywords.any (fun k => strContains (lowerStr b) k) = true :=
      List.any_eq_true.mpr ⟨"file", by decide, h⟩
    simp [notificationOverride, isDownloadNotification, hx]

/-- C10 witness: the `downloading` and body-side `file` conjuncts at
concrete inputs. -/
theorem c10_notification_override_witness :
    notificationOverride (some "Downloading data") none = .noop ∧
    notificationOverride none (some "Your file is ready") = .noop := by
  refine ⟨c10_notification_override.2.2.1 "Downloading data" none (by decide),
    c10_notification_override.2.2.2.1 none "Your file is ready" (by decide)⟩
